import Mathlib

/-!
Verification of the Nur-Daily core against its specification.

Shallow embedding of the temporal record store, the settings store, the
content-resolution pipeline (Hijri date + daily inspiration) and the tasbeeh
session log of the Nur-Daily application, together with proofs and refutations
of the claims the spec makes about them.

Conventions of the embedding:
* An ISO-8601 timestamp string is represented by the two observations the
  code makes of it: the substring before the letter T (the day-granularity
  key) and the Date getTime millisecond value.
* Browser localStorage is explicit state threaded through the functions.
* Network, AI and Intl calls are modelled by oracle parameters describing
  the outcome of the call; the surrounding control flow (caching, fallback,
  validation) is translated from the source.
* The JS array sort with a comparator is modelled as a comparison sort
  (List.insertionSort) over the order the comparator denotes.
-/

namespace NurDaily

/-- Model of an ISO-8601 timestamp string (the date field of a DailyEntry),
recording the two observations the code makes of such a string: the substring
before the letter T (the day-granularity key produced by the split on T) and
the epoch-millisecond value produced by Date getTime, used only for sorting. -/
structure IsoDate where
  dayKey : String
  timeMs : Nat
  deriving DecidableEq, Repr

/-- Source types.ts: the tri-state Yes / No / null becomes Option YesNo. -/
inductive YesNo where
  | yes
  | no
  deriving DecidableEq, Repr

/-- Source types.ts CustomTask. -/
structure CustomTask where
  id : String
  text : String
  done : Bool
  deriving DecidableEq, Repr

/-- Source types.ts, the prayers field of DailyEntry. -/
structure Prayers where
  fajr : Bool
  zuhr : Bool
  asar : Bool
  maghrib : Bool
  esha : Bool
  deriving DecidableEq, Repr

/-- Source types.ts, the skill field of DailyEntry. -/
structure Skill where
  done : Option YesNo
  notes : String
  deriving DecidableEq, Repr

/-- Source types.ts DailyEntry. -/
structure DailyEntry where
  id : String
  date : IsoDate
  hijriDate : String
  prayers : Prayers
  quran : Option YesNo
  workout : Option YesNo
  skill : Skill
  customTasks : List CustomTask
  diary : String
  deriving DecidableEq, Repr

/-- The JS comparator subtracting the getTime value of the first entry from
that of the second orders entries descending by timestamp; the array sort
with it is a comparison sort for that order, modelled by insertion sort. -/
def sortByDateDesc (l : List DailyEntry) : List DailyEntry :=
  l.insertionSort (fun a b => b.date.timeMs ≤ a.date.timeMs)

/-- Function saveEntry of App.tsx and part_005: drop every existing entry
whose day-granularity date equals that of the incoming entry, prepend the new
entry, re-sort descending by date.  The resulting list is both the new
in-memory state and what is persisted. -/
def saveEntry (entry : DailyEntry) (prev : List DailyEntry) : List DailyEntry :=
  let filtered := prev.filter (fun e => decide (e.date.dayKey ≠ entry.date.dayKey))
  sortByDateDesc (entry :: filtered)

/-- The Dashboard entry-sync effect of part_002: find the first entry whose
day-granularity date equals the day key of the selected timestamp. -/
def queryEntry (entries : List DailyEntry) (d : IsoDate) : Option DailyEntry :=
  entries.find? (fun e => decide (e.date.dayKey = d.dayKey))

/-- Number of stored entries whose day-granularity date equals `d`. -/
def countDate (l : List DailyEntry) (d : String) : Nat :=
  (l.filter (fun e => decide (e.date.dayKey = d))).length

/-- Store invariant: at most one entry per distinct calendar date. -/
def atMostOnePerDate (l : List DailyEntry) : Prop :=
  ∀ d : String, countDate l d ≤ 1

/-! Section: backup and restore — handleRestoreJSON and exportJSON of
part_005, handleFileChange of SettingsView.tsx. -/

/-- In-memory entry collection plus the two persisted copies written by
saveToStorage (the nur_daily_entries key and the records field of the
dailyTrackerProData key). -/
structure AppEntryState where
  entries : List DailyEntry
  storedEntries : Option (List DailyEntry)
  storedProRecords : Option (List DailyEntry)
  deriving DecidableEq, Repr

/-- The content of a selected backup file, after the FileReader has read it:
either text that JSON.parse rejects, valid JSON that is not an array (the
Array.isArray test fails), or a JSON array of entry records. -/
inductive BackupInput where
  | malformed
  | nonArray
  | array (es : List DailyEntry)
  deriving DecidableEq, Repr

/-- Whether the input passed both validation steps. -/
def BackupInput.isValidArray : BackupInput → Bool
  | .array _ => true
  | _ => false

/-- Outcome surfaced to the user by the restore flow. -/
inductive RestoreOutcome where
  | parseFailed
  | invalidFormat
  | restored (count : Nat)
  deriving DecidableEq, Repr

/-- Whether the outcome is one of the two explicit failure alerts. -/
def RestoreOutcome.isError : RestoreOutcome → Bool
  | .parseFailed => true
  | .invalidFormat => true
  | .restored _ => false

/-- Function handleFileChange of SettingsView.tsx composed with
handleRestoreJSON of part_005: a JSON.parse failure is caught and alerted
without calling onRestoreJSON; a non-array value is alerted as an invalid
backup file format and the handler returns; otherwise the sorted array
replaces the collection in memory and in both storage keys (saveToStorage)
and a success alert reports the count. -/
def restoreFromFile (input : BackupInput) (s : AppEntryState) :
    AppEntryState × RestoreOutcome :=
  match input with
  | .malformed => (s, .parseFailed)
  | .nonArray => (s, .invalidFormat)
  | .array es =>
    let sorted := sortByDateDesc es
    (⟨sorted, some sorted, some sorted⟩, .restored sorted.length)

/-- Function exportJSON of part_005: the backup payload is the JSON
serialisation of the current entry array verbatim, modelled as the list it
serialises. -/
def exportJSON (s : AppEntryState) : List DailyEntry :=
  s.entries

/-! Section: settings store — updateSettings of App.tsx and part_005,
updateAlarm of SettingsView.tsx. -/

/-- Source types.ts: one enabled/time alarm pair. -/
structure AlarmCfg where
  enabled : Bool
  time : String
  deriving DecidableEq, Repr

/-- The runtime JS object holding the per-prayer alarm entries.  A key may be
absent from the object (modelled as none), which is what distinguishes a
complete five-key map from a truncated one. -/
structure AlarmsObj where
  fajr : Option AlarmCfg
  zuhr : Option AlarmCfg
  asar : Option AlarmCfg
  maghrib : Option AlarmCfg
  esha : Option AlarmCfg
  deriving DecidableEq, Repr

/-- Source types.ts ThemeMode plus the system value used by part_005. -/
inductive ThemeMode where
  | light
  | dark
  | royal
  | system
  deriving DecidableEq, Repr

/-- Source types.ts AppSettings (location omitted: not touched by the claims). -/
structure AppSettings where
  theme : ThemeMode
  notificationsEnabled : Bool
  autoPrayerTimes : Bool
  dailyReminderTime : String
  alarms : AlarmsObj
  deriving DecidableEq, Repr

/-- A partial AppSettings record: every top-level key may be absent. -/
structure AppSettingsPatch where
  theme : Option ThemeMode
  notificationsEnabled : Option Bool
  autoPrayerTimes : Option Bool
  dailyReminderTime : Option String
  alarms : Option AlarmsObj
  deriving DecidableEq, Repr

/-- Function updateSettings of App.tsx and part_005: a spread of the
previous record under the partial record builds a shallow merge at the top
level only: each key present in the partial replaces the previous value
wholesale (including the whole `alarms` object), each absent key keeps the
previous value.  The merged record is also what is persisted. -/
def updateSettings (newSettings : AppSettingsPatch) (prev : AppSettings) :
    AppSettings :=
  { theme := newSettings.theme.getD prev.theme
    notificationsEnabled := newSettings.notificationsEnabled.getD prev.notificationsEnabled
    autoPrayerTimes := newSettings.autoPrayerTimes.getD prev.autoPrayerTimes
    dailyReminderTime := newSettings.dailyReminderTime.getD prev.dailyReminderTime
    alarms := newSettings.alarms.getD prev.alarms }

/-- The five prayer keys of the alarms map. -/
inductive PrayerKey where
  | fajr
  | zuhr
  | asar
  | maghrib
  | esha
  deriving DecidableEq, Repr

/-- Dynamic key lookup `alarms[prayer]`. -/
def AlarmsObj.get (a : AlarmsObj) : PrayerKey → Option AlarmCfg
  | .fajr => a.fajr
  | .zuhr => a.zuhr
  | .asar => a.asar
  | .maghrib => a.maghrib
  | .esha => a.esha

/-- Dynamic key write `{ ...a, [prayer]: v }`. -/
def AlarmsObj.set (a : AlarmsObj) : PrayerKey → Option AlarmCfg → AlarmsObj
  | .fajr, v => { a with fajr := v }
  | .zuhr, v => { a with zuhr := v }
  | .asar, v => { a with asar := v }
  | .maghrib, v => { a with maghrib := v }
  | .esha, v => { a with esha := v }

/-- The alarms object has all five prayer keys present. -/
def hasFiveKeys (a : AlarmsObj) : Bool :=
  a.fajr.isSome && a.zuhr.isSome && a.asar.isSome && a.maghrib.isSome && a.esha.isSome

/-- The field written by updateAlarm: either the enabled flag or the time. -/
inductive AlarmField where
  | enabled (b : Bool)
  | time (t : String)
  deriving DecidableEq, Repr

/-- Spread of the existing alarm entry with one field overwritten. -/
def AlarmCfg.setField (c : AlarmCfg) : AlarmField → AlarmCfg
  | .enabled b => { c with enabled := b }
  | .time t => { c with time := t }

/-- Function updateAlarm of SettingsView.tsx: builds the full replacement
alarms map by spreading the existing five-key map and overwriting one prayer
entry with one field changed, then passes it as the alarms field of the
partial.  The `getD` default is
unreachable when the existing map has all five keys (hypothesis of the
theorems using this). -/
def updateAlarmPatch (settings : AppSettings) (prayer : PrayerKey)
    (v : AlarmField) : AppSettingsPatch :=
  { theme := none
    notificationsEnabled := none
    autoPrayerTimes := none
    dailyReminderTime := none
    alarms := some (settings.alarms.set prayer
      (some (((settings.alarms.get prayer).getD ⟨false, ""⟩).setField v))) }

/-- Constant DEFAULT_SETTINGS of App.tsx (lines 12-24). -/
def DEFAULT_SETTINGS : AppSettings :=
  { theme := .light
    notificationsEnabled := true
    autoPrayerTimes := false
    dailyReminderTime := "21:30"
    alarms :=
      { fajr := some ⟨true, "05:15"⟩
        zuhr := some ⟨true, "13:15"⟩
        asar := some ⟨true, "16:45"⟩
        maghrib := some ⟨true, "18:15"⟩
        esha := some ⟨true, "20:00"⟩ } }

/-! Section: daily inspiration resolution — fetchDailyInspiration and
getCachedInspiration of src/services/islamicService.ts, and the
dual-provider variant of both in part_003. -/

/-- Source types.ts: one half of a DailyInspiration (arabic, urdu, ref). -/
structure InspHalf where
  arabic : String
  urdu : String
  ref : String
  deriving DecidableEq, Repr

/-- Source types.ts DailyInspiration. -/
structure DailyInspiration where
  ayah : InspHalf
  hadith : InspHalf
  deriving DecidableEq, Repr

/-- The raw string stored under `daily_inspiration_cache`: either text that
`JSON.parse` rejects, or a well-formed `{date, data}` wrapper. -/
inductive InspCacheRaw where
  | corrupt
  | wellFormed (date : String) (data : DailyInspiration)
  deriving DecidableEq, Repr

/-- Function getCachedInspiration of src/services/islamicService.ts (lines
114-125):
the `JSON.parse` is wrapped in try/catch, so a corrupt stored value returns
`null` (a cache miss) instead of throwing. -/
def getCachedInspiration (raw : Option InspCacheRaw) (today : String) :
    Option DailyInspiration :=
  match raw with
  | none => none
  | some .corrupt => none
  | some (.wellFormed d data) => if d = today then some data else none

/-- Variant getCachedInspiration of part_003 and part_001: the same read WITHOUT the
try/catch — `JSON.parse` of a corrupt stored value throws, and the exception
propagates to the caller (`Except.error`). -/
def getCachedInspirationThrowing (raw : Option InspCacheRaw) (today : String) :
    Except Unit (Option DailyInspiration) :=
  match raw with
  | none => .ok none
  | some .corrupt => .error ()
  | some (.wellFormed d data) => .ok (if d = today then some data else none)

/-- Outcome of the single structured Gemini request made by
`src/services/islamicService.ts` `fetchDailyInspiration`: either the parsed
JSON result, or a thrown error (network, missing key, or parse failure). -/
inductive AiInspOutcome where
  | ok (d : DailyInspiration)
  | err
  deriving DecidableEq, Repr

/-- The hard-coded fallback pair of `src/services/islamicService.ts`
`fetchDailyInspiration` (lines 98-109). -/
def FALLBACK_AI : DailyInspiration :=
  { ayah :=
      { arabic := "إِنَّ مَعَ الْعُسْرِ يُسْرًا"
        urdu := "بیشک ہر مشکل کے ساتھ آسانی ہے۔"
        ref := "Surah Ash-Sharh (94:6)" }
    hadith :=
      { arabic := "خَيْرُكُمْ مَنْ تَعَلَّمَ الْقُرْآنَ وَعَلَّمَهُ"
        urdu := "تم میں سے بہترین وہ ہے جس نے قرآن سیکھا اور دوسروں کو سکھایا۔"
        ref := "Sahih Bukhari - 5027" } }

/-- Function fetchDailyInspiration of src/services/islamicService.ts (lines
70-112):
cache hit returns the cached pair; on a miss, a successful AI fetch is cached
under the date string of the current day and returned; a failed fetch returns the hard-coded
fallback WITHOUT writing the cache. -/
def fetchDailyInspirationAI (today : String) (oracle : AiInspOutcome)
    (raw : Option InspCacheRaw) : DailyInspiration × Option InspCacheRaw :=
  match getCachedInspiration raw today with
  | some cached => (cached, raw)
  | none =>
    match oracle with
    | .ok result => (result, some (.wellFormed today result))
    | .err => (FALLBACK_AI, raw)

/-- Outcome of one provider sub-fetch in `part_003` `fetchDailyInspiration`:
the request succeeded and a random item was picked (`ok`), it succeeded but
the item list was empty (the inspiration variable stays `null`), or it threw /
returned a non-ok status / failed to parse (`err`, handled by the catch). -/
inductive HalfOutcome where
  | ok (h : InspHalf)
  | emptyData
  | err
  deriving DecidableEq, Repr

/-- Fallback ayah of part_003 (lines 82-86). -/
def FALLBACK_AYAH : InspHalf :=
  { arabic := "إِنَّ مَعَ الْعُسْرِ يُسْرًا"
    urdu := "بیشک تنگی کے ساتھ آسانی ہے۔"
    ref := "Surah Ash-Sharh (94:6)" }

/-- Fallback hadith of part_003 (lines 107-111). -/
def FALLBACK_HADITH : InspHalf :=
  { arabic := "خَيْرُكُمْ مَنْ تَعَلَّمَ الْقُرْآنَ وَعَلَّمَهُ"
    urdu := "تم میں سے بہترین وہ ہے جو قرآن سیکھے اور سکھائے۔"
    ref := "Sahih Bukhari - 5027" }

/-- One try/catch block of `part_003`: the fetched half on success, `null`
when the provider returned no items, the fixed fallback when it threw. -/
def resolveHalf (o : HalfOutcome) (fallback : InspHalf) : Option InspHalf :=
  match o with
  | .ok h => some h
  | .emptyData => none
  | .err => some fallback

/-- Variant fetchDailyInspiration of part_003 (lines 53-121): uses the throwing cache
read (a corrupt cache value makes the whole call throw); on a miss, each half
is fetched independently with its own fallback, the combined result
(with empty strings for a null half) is ALWAYS cached under the date string
of the current day and returned. -/
def fetchDailyInspirationDual (today : String) (oAyah oHadith : HalfOutcome)
    (raw : Option InspCacheRaw) :
    Except Unit (DailyInspiration × Option InspCacheRaw) :=
  match getCachedInspirationThrowing raw today with
  | .error e => .error e
  | .ok (some cached) => .ok (cached, raw)
  | .ok none =>
    let ayah := (resolveHalf oAyah FALLBACK_AYAH).getD ⟨"", "", ""⟩
    let hadith := (resolveHalf oHadith FALLBACK_HADITH).getD ⟨"", "", ""⟩
    let final : DailyInspiration := ⟨ayah, hadith⟩
    .ok (final, some (.wellFormed today final))

/-! Section: Hijri date resolution — getSystemHijriDate and
fetchHijriDateOnline of part_001. -/

/-- Outcome of the Intl.DateTimeFormat call (locale
en-u-ca-islamic-umalqura-nu-latn) inside getSystemHijriDate: all three parts found, some part missing
(the code falls back to `formatter.format(date) + " AH"`), or the constructor
or format call threw. -/
inductive SysHijriOutcome where
  | parts (day month year : String)
  | noParts (formatted : String)
  | err
  deriving DecidableEq, Repr

/-- Function getSystemHijriDate of part_001 (lines 253-275): formats the found parts
as `"<day> <month>, <year> AH"`, falls back to the raw formatted string plus
`" AH"`, and returns `""` when `Intl` threw (the catch branch). -/
def getSystemHijriDate : SysHijriOutcome → String
  | .parts day month year => day ++ " " ++ month ++ ", " ++ year ++ " AH"
  | .noParts formatted => formatted ++ " AH"
  | .err => ""

/-- Whether `pat` occurs as a contiguous substring of `s` (the JS string
includes method). -/
def strIncludes (s pat : String) : Bool :=
  go pat.toList s.toList
where
  /-- Scan for the pattern at every suffix. -/
  go (pat : List Char) : List Char → Bool
    | [] => pat.isPrefixOf []
    | c :: rest => pat.isPrefixOf (c :: rest) || go pat rest

/-- The literal Gregorian month-name list of `fetchHijriDateOnline`. -/
def gregorianMonths : List String :=
  ["january", "february", "march", "april", "may", "june", "july",
   "august", "september", "october", "november", "december"]

/-- Whether the lower-cased string contains some literal Gregorian month
name, as tested by fetchHijriDateOnline. -/
def containsGregorianMonth (str : String) : Bool :=
  gregorianMonths.any (fun m => strIncludes str.toLower m)

/-- Outcome of the Gemini beautification request in `fetchHijriDateOnline`:
the trimmed response text (`response.text?.trim() || ""`), or a thrown error
(429 quota, network, missing key). -/
inductive AiHijriOutcome where
  | ok (text : String)
  | err
  deriving DecidableEq, Repr

/-- The Hijri cache: one `localStorage` entry per Gregorian day key
(`hijri_accurate_v6_<dateKey>`). -/
def HijriCache : Type := String → Option String

/-- Write one key of the Hijri cache. -/
def HijriCache.write (c : HijriCache) (k v : String) : HijriCache :=
  fun k' => if k' = k then some v else c k'

/-- The resolution body of `part_001` `fetchHijriDateOnline` (lines 292-325),
i.e. everything after the cache check: compute the system Umm al-Qura date;
if it is empty return the `"Islamic Date Unavailable"` placeholder without
caching; otherwise ask Gemini — a plausible answer (length > 5, no Gregorian
month name) is cached and returned, anything else (weird text, thrown error,
429) caches and returns the system date. -/
def resolveHijri (dateKey : String) (sys : SysHijriOutcome)
    (ai : AiHijriOutcome) (cache : HijriCache) : String × HijriCache :=
  let systemDate := getSystemHijriDate sys
  if systemDate = "" then
    ("Islamic Date Unavailable", cache)
  else
    match ai with
    | .ok text =>
      if 5 < text.length ∧ containsGregorianMonth text = false then
        (text, cache.write dateKey text)
      else
        (systemDate, cache.write dateKey systemDate)
    | .err => (systemDate, cache.write dateKey systemDate)

/-- Function fetchHijriDateOnline of part_001 (lines 281-326): return the cached
value for the day key unless it looks like a mis-resolved Gregorian date
(contains a literal Gregorian month name); otherwise resolve. -/
def fetchHijriDateOnline (dateKey : String) (sys : SysHijriOutcome)
    (ai : AiHijriOutcome) (cache : HijriCache) : String × HijriCache :=
  match cache dateKey with
  | some cached =>
    if containsGregorianMonth cached = false then (cached, cache)
    else resolveHijri dateKey sys ai cache
  | none => resolveHijri dateKey sys ai cache

/-! Section: tasbeeh counter — TasbeehCounter of part_000. -/

/-- Source part_000 TasbeehSession. -/
structure TasbeehSession where
  id : String
  label : String
  count : Nat
  timestamp : String
  isoDate : String
  deriving DecidableEq, Repr

/-- Function logSession of part_000 (lines 132-150): prepend the new record and
truncate with `.slice(0, 50)`; the truncated list is both the new state and
what is persisted.  The record itself (random id, locale-formatted timestamp)
is supplied by an oracle of the caller. -/
def logSession (newEntry : TasbeehSession) (history : List TasbeehSession) :
    List TasbeehSession :=
  (newEntry :: history).take 50

/-- The counter state of `TasbeehCounter`: the running count, the selected
target (`0` encodes the infinite / free-running mode `∞`), and the session
history. -/
structure TasbeehState where
  count : Nat
  target : Nat
  history : List TasbeehSession
  deriving Repr

/-- Function handleIncrement of part_000 (lines 117-130): bump the count; if a
non-infinite target is selected and the new count equals it exactly, log a
session with that count.  `mk` is the oracle building the session record from
the final count (random id, current dhikr label, formatted timestamps). -/
def handleIncrement (mk : Nat → TasbeehSession) (s : TasbeehState) :
    TasbeehState :=
  let newCount := s.count + 1
  if 0 < s.target ∧ newCount = s.target then
    { s with count := newCount, history := logSession (mk newCount) s.history }
  else
    { s with count := newCount }

/-- Function resetCount of part_000 (lines 152-157): log only when the count is
non-zero AND the infinite target (`0`) is selected, then zero the count. -/
def resetCount (mk : Nat → TasbeehSession) (s : TasbeehState) : TasbeehState :=
  if 0 < s.count ∧ s.target = 0 then
    { s with count := 0, history := logSession (mk s.count) s.history }
  else
    { s with count := 0 }

/-- Iterated taps on the counter: `n` consecutive increments. -/
def iterIncr (mk : Nat → TasbeehSession) : Nat → TasbeehState → TasbeehState
  | 0, s => s
  | n + 1, s => iterIncr mk n (handleIncrement mk s)

/-! Section: concrete inputs used to instantiate the theorems. -/

/-- An example entry dated 2024-03-01 (noon UTC). -/
def sampleEntry : DailyEntry :=
  { id := "a1"
    date := { dayKey := "2024-03-01", timeMs := 1709294400000 }
    hijriDate := "20 Shaban, 1445 AH"
    prayers := { fajr := true, zuhr := false, asar := false, maghrib := false, esha := false }
    quran := some .yes
    workout := none
    skill := { done := none, notes := "" }
    customTasks := []
    diary := "" }

/-- An example entry dated 2024-02-28. -/
def sampleEntry2 : DailyEntry :=
  { id := "a2"
    date := { dayKey := "2024-02-28", timeMs := 1709121600000 }
    hijriDate := "18 Shaban, 1445 AH"
    prayers := { fajr := false, zuhr := false, asar := false, maghrib := false, esha := false }
    quran := none
    workout := some .no
    skill := { done := none, notes := "" }
    customTasks := []
    diary := "rest" }

/-- A query timestamp on the same calendar day as `sampleEntry` but at a
different time of day (18:00 UTC). -/
def sampleQueryDate : IsoDate :=
  { dayKey := "2024-03-01", timeMs := 1709316000000 }

/-- The partial update of the claim: an alarms sub-map that mentions only the
fajr prayer. -/
def fajrOnlyPatch : AppSettingsPatch :=
  { theme := none
    notificationsEnabled := none
    autoPrayerTimes := none
    dailyReminderTime := none
    alarms := some
      { fajr := some { enabled := true, time := "05:15" }
        zuhr := none
        asar := none
        maghrib := none
        esha := none } }

/-- A fetched inspiration pair distinct from the hard-coded fallback. -/
def sampleInspiration : DailyInspiration :=
  { ayah :=
      { arabic := "بِسْمِ اللَّهِ الرَّحْمَٰنِ الرَّحِيمِ"
        urdu := "اللہ کے نام سے جو نہایت مہربان رحم والا ہے"
        ref := "1:1" }
    hadith :=
      { arabic := "إِنَّمَا الْأَعْمَالُ بِالنِّيَّاتِ"
        urdu := "اعمال کا دارومدار نیتوں پر ہے"
        ref := "Sahih Bukhari - 1" } }

/-- Session records for the 51-call scenario: distinct ids, fixed label and
count as in the scenario. -/
def mkSessionW (i : Nat) : TasbeehSession :=
  { id := toString i
    label := "Darood Pak"
    count := 100
    timestamp := "Mon, Mar 1, 10:00"
    isoDate := "2024-03-01T10:00:00.000Z" }

/-- The 51 session records of the scenario, in call order. -/
def ssW : List TasbeehSession :=
  (List.range 51).map mkSessionW

/-- The first (oldest) of the 51 session records. -/
def s0W : TasbeehSession :=
  mkSessionW 0

/-- The last 50 of the 51 session records, in call order. -/
def tW : List TasbeehSession :=
  (List.range 50).map (fun i => mkSessionW (i + 1))

/-- Oracle building the session record logged for a given final count. -/
def mkRunW (finalCount : Nat) : TasbeehSession :=
  { id := "r1"
    label := "SubhanAllah"
    count := finalCount
    timestamp := "Mon, Mar 1, 11:00"
    isoDate := "2024-03-01T11:00:00.000Z" }

lemma saveEntry_perm (entry : DailyEntry) (prev : List DailyEntry) :
    List.Perm (saveEntry entry prev)
      (entry :: prev.filter (fun e => decide (e.date.dayKey ≠ entry.date.dayKey))) := by
  unfold saveEntry sortByDateDesc
  exact List.perm_insertionSort _ _

lemma filter_eq_of_filtered (entry : DailyEntry) (prev : List DailyEntry) :
    (prev.filter (fun e => decide (e.date.dayKey ≠ entry.date.dayKey))).filter
        (fun e => decide (e.date.dayKey = entry.date.dayKey)) = [] := by
  rw [List.filter_eq_nil_iff]
  intro a ha
  have h1 := List.of_mem_filter ha
  simp only [decide_eq_true_eq] at h1 ⊢
  exact h1

lemma countDate_saveEntry_self (entry : DailyEntry) (prev : List DailyEntry) :
    countDate (saveEntry entry prev) entry.date.dayKey = 1 := by
  unfold countDate
  have hperm := (saveEntry_perm entry prev).filter
    (fun e => decide (e.date.dayKey = entry.date.dayKey))
  rw [hperm.length_eq]
  simp only [List.filter_cons, decide_eq_true_eq]
  rw [if_pos trivial, filter_eq_of_filtered]
  rfl

lemma queryEntry_saveEntry (entry : DailyEntry) (prev : List DailyEntry)
    (d : IsoDate) (h : d.dayKey = entry.date.dayKey) :
    queryEntry (saveEntry entry prev) d = some entry := by
  unfold queryEntry
  have hperm := saveEntry_perm entry prev
  cases hfind : (saveEntry entry prev).find? (fun e => decide (e.date.dayKey = d.dayKey)) with
  | none =>
    exfalso
    rw [List.find?_eq_none] at hfind
    have hmem : entry ∈ saveEntry entry prev := hperm.mem_iff.mpr (List.mem_cons_self _ _)
    have := hfind entry hmem
    simp [h] at this
  | some x =>
    have hx : x.date.dayKey = d.dayKey := by
      have := List.find?_some hfind
      simpa using this
    have hxmem : x ∈ saveEntry entry prev := List.mem_of_find?_eq_some hfind
    have hxmem' := hperm.mem_iff.mp hxmem
    rcases List.mem_cons.mp hxmem' with rfl | hxf
    · rfl
    · exfalso
      have := List.of_mem_filter hxf
      simp only [decide_eq_true_eq] at this
      exact this (hx.trans h)

lemma atMostOnePerDate_saveEntry (entry : DailyEntry) (prev : List DailyEntry)
    (hinv : atMostOnePerDate prev) : atMostOnePerDate (saveEntry entry prev) := by
  intro d
  unfold countDate
  have hperm := (saveEntry_perm entry prev).filter
    (fun e => decide (e.date.dayKey = d))
  rw [hperm.length_eq]
  by_cases hd : d = entry.date.dayKey
  · subst hd
    simp only [List.filter_cons, decide_eq_true_eq]
    rw [if_pos trivial, filter_eq_of_filtered]
    exact le_refl 1
  · simp only [List.filter_cons, decide_eq_true_eq]
    rw [if_neg (fun he => hd he.symm)]
    have hsub : List.Sublist
        ((prev.filter (fun e => decide (e.date.dayKey ≠ entry.date.dayKey))).filter
          (fun e => decide (e.date.dayKey = d)))
        (prev.filter (fun e => decide (e.date.dayKey = d))) :=
      (List.filter_sublist prev).filter _
    exact le_trans hsub.length_le (hinv d)

lemma atMostOnePerDate_foldl (es : List DailyEntry) :
    ∀ prev : List DailyEntry, atMostOnePerDate prev →
      atMostOnePerDate (es.foldl (fun s x => saveEntry x s) prev) := by
  induction es with
  | nil => intro prev h; exact h
  | cons e es ih =>
    intro prev h
    exact ih (saveEntry e prev) (atMostOnePerDate_saveEntry e prev h)

/-! Section: claim theorems. -/

/-- Claim C1: for every entry collection and every entry `e`, upserting `e`
leaves exactly one entry whose day-granularity date equals the date of `e`
(last write wins); a subsequent query with any timestamp falling on the same
calendar day returns `e`; and starting from a collection with at most one
entry per date, any further sequence of upserts keeps the total count at most
one per distinct date. -/
theorem upsert_day_unique_query
    (prev : List DailyEntry) (e : DailyEntry) (d : IsoDate)
    (hday : d.dayKey = e.date.dayKey) (hinv : atMostOnePerDate prev) :
    countDate (saveEntry e prev) e.date.dayKey = 1 ∧
    queryEntry (saveEntry e prev) d = some e ∧
    ∀ es : List DailyEntry,
      atMostOnePerDate (es.foldl (fun s x => saveEntry x s) (saveEntry e prev)) := by
  refine ⟨countDate_saveEntry_self e prev, queryEntry_saveEntry e prev d hday, ?_⟩
  intro es
  exact atMostOnePerDate_foldl es _ (atMostOnePerDate_saveEntry e prev hinv)

/-- Witness for C1 at a concrete store, entry and same-day query timestamp. -/
theorem upsert_day_unique_query_witness :
    sampleQueryDate.dayKey = sampleEntry.date.dayKey ∧
    (countDate (saveEntry sampleEntry [sampleEntry2]) sampleEntry.date.dayKey = 1 ∧
     queryEntry (saveEntry sampleEntry [sampleEntry2]) sampleQueryDate = some sampleEntry ∧
     ∀ es : List DailyEntry,
       atMostOnePerDate (es.foldl (fun s x => saveEntry x s)
         (saveEntry sampleEntry [sampleEntry2]))) :=
  ⟨by decide,
   upsert_day_unique_query [sampleEntry2] sampleEntry sampleQueryDate (by decide)
     (fun d => List.length_filter_le _ [sampleEntry2])⟩

/-- Claim C2: restoring from an input that is not a JSON array (malformed
JSON, or valid JSON of a non-array) surfaces an explicit error outcome and
leaves the prior collection unchanged both in memory and in every persisted
copy — no write happens before validation succeeds. -/
theorem restore_invalid_input_noop
    (input : BackupInput) (s : AppEntryState)
    (h : input.isValidArray = false) :
    (restoreFromFile input s).1 = s ∧
    ((restoreFromFile input s).2).isError = true := by
  cases input with
  | malformed => exact ⟨rfl, rfl⟩
  | nonArray => exact ⟨rfl, rfl⟩
  | array es => simp [BackupInput.isValidArray] at h

/-- Witness for C2 at a concrete non-array input and non-trivial state. -/
theorem restore_invalid_input_noop_witness :
    BackupInput.nonArray.isValidArray = false ∧
    ((restoreFromFile .nonArray ⟨[sampleEntry], some [sampleEntry], none⟩).1 =
        ⟨[sampleEntry], some [sampleEntry], none⟩ ∧
     ((restoreFromFile .nonArray
        ⟨[sampleEntry], some [sampleEntry], none⟩).2).isError = true) :=
  ⟨rfl, restore_invalid_input_noop .nonArray ⟨[sampleEntry], some [sampleEntry], none⟩ rfl⟩

/-- Claim C3: exporting the entry collection to the backup array and
immediately restoring that payload yields an equivalent collection — a
permutation of the original, hence the same set of entries per date — for
every order the entries had at export time, and the restore reports
success. -/
theorem export_restore_roundtrip (s : AppEntryState) :
    List.Perm ((restoreFromFile (.array (exportJSON s)) s).1.entries) s.entries ∧
    (∀ d : String,
      List.Perm
        (((restoreFromFile (.array (exportJSON s)) s).1.entries).filter
          (fun e => decide (e.date.dayKey = d)))
        (s.entries.filter (fun e => decide (e.date.dayKey = d)))) ∧
    ((restoreFromFile (.array (exportJSON s)) s).2).isError = false := by
  have hperm : List.Perm (sortByDateDesc s.entries) s.entries :=
    List.perm_insertionSort _ _
  exact ⟨hperm, fun d => hperm.filter _, rfl⟩

/-- Counterexample to claim C4: passing a partial whose alarms sub-map
mentions only fajr does NOT leave the other four prayer alarm entries
unchanged — the top-level spread replaces the whole alarms object, so the
zuhr entry is lost and the result no longer has the five prayer keys. -/
theorem settings_fajr_only_truncates :
    ¬ ((updateSettings fajrOnlyPatch DEFAULT_SETTINGS).alarms.get .zuhr =
         DEFAULT_SETTINGS.alarms.get .zuhr ∧
       hasFiveKeys (updateSettings fajrOnlyPatch DEFAULT_SETTINGS).alarms = true) := by
  decide

/-- Claim C4 as amended: updateSettings is a shallow top-level merge — an
alarms field present in the partial replaces the previous alarms map
wholesale, never key-by-key.  The five keys and the other four entries are
preserved exactly when the caller passes a complete replacement map, as
updateAlarm of SettingsView.tsx does by spreading the existing five-key map;
and a partial without an alarms field leaves the alarms map unchanged. -/
theorem settings_update_merge_semantics
    (s : AppSettings) (prayer : PrayerKey) (v : AlarmField)
    (hfive : hasFiveKeys s.alarms = true) :
    hasFiveKeys (updateSettings (updateAlarmPatch s prayer v) s).alarms = true ∧
    (∀ q : PrayerKey, q ≠ prayer →
      (updateSettings (updateAlarmPatch s prayer v) s).alarms.get q =
        s.alarms.get q) ∧
    (∀ p : AppSettingsPatch, p.alarms = none →
      (updateSettings p s).alarms = s.alarms) := by
  simp only [hasFiveKeys, Bool.and_eq_true, Option.isSome_iff_exists] at hfive
  obtain ⟨⟨⟨⟨⟨cf, hf⟩, ⟨cz, hz⟩⟩, ⟨ca, ha⟩⟩, ⟨cm, hm⟩⟩, ⟨ce, he⟩⟩ := hfive
  refine ⟨?_, ?_, ?_⟩
  · cases prayer <;>
      simp [updateSettings, updateAlarmPatch, AlarmsObj.set, hasFiveKeys,
        hf, hz, ha, hm, he]
  · intro q hq
    cases prayer <;> cases q <;>
      simp_all [updateSettings, updateAlarmPatch, AlarmsObj.set, AlarmsObj.get]
  · intro p hp
    simp [updateSettings, hp]

/-- Witness for the amended C4 at the default settings, toggling the fajr
alarm: the five keys survive and the zuhr entry is untouched. -/
theorem settings_update_merge_semantics_witness :
    hasFiveKeys DEFAULT_SETTINGS.alarms = true ∧
    hasFiveKeys (updateSettings
      (updateAlarmPatch DEFAULT_SETTINGS .fajr (.enabled false))
      DEFAULT_SETTINGS).alarms = true ∧
    (updateSettings (updateAlarmPatch DEFAULT_SETTINGS .fajr (.enabled false))
        DEFAULT_SETTINGS).alarms.get .zuhr = DEFAULT_SETTINGS.alarms.get .zuhr :=
  ⟨by decide,
   (settings_update_merge_semantics DEFAULT_SETTINGS .fajr (.enabled false)
     (by decide)).1,
   (settings_update_merge_semantics DEFAULT_SETTINGS .fajr (.enabled false)
     (by decide)).2.1 .zuhr (by decide)⟩

/-- Counterexample to claim C5: in fetchDailyInspiration of
src/services/islamicService.ts, a resolution whose halves are substituted by
the static fallback is NOT written to the cache — starting from an empty
cache, a failed fetch returns the fallback pair and leaves the cache empty,
and a second request on the same calendar day performs another fetch attempt
(here returning different content). -/
theorem inspiration_fallback_not_cached :
    (fetchDailyInspirationAI "Sat Oct 11 2025" .err none).2 = none ∧
    (fetchDailyInspirationAI "Sat Oct 11 2025" (.ok sampleInspiration)
        (fetchDailyInspirationAI "Sat Oct 11 2025" .err none).2).1 ≠
      (fetchDailyInspirationAI "Sat Oct 11 2025" .err none).1 := by
  decide

/-- Claim C5 as amended: on a cache miss, the dual-provider variant
(part_003) caches every combined result — fully fetched, half- or
fully-fallback — under the current date, and every subsequent same-day
request returns that identical content without consulting the fetch oracles;
the single-request AI variant (src/services/islamicService.ts) does so only
for a fully fetched result, and returns the hard-coded fallback WITHOUT
writing the cache when the fetch fails. -/
theorem inspiration_caching_semantics
    (today : String) (raw : Option InspCacheRaw)
    (hmiss : getCachedInspiration raw today = none)
    (hmiss2 : getCachedInspirationThrowing raw today = .ok none) :
    (∀ oAyah oHadith : HalfOutcome, ∃ r : DailyInspiration,
      fetchDailyInspirationDual today oAyah oHadith raw =
        .ok (r, some (.wellFormed today r)) ∧
      ∀ oA oH : HalfOutcome,
        fetchDailyInspirationDual today oA oH (some (.wellFormed today r)) =
          .ok (r, some (.wellFormed today r))) ∧
    (∀ d : DailyInspiration,
      fetchDailyInspirationAI today (.ok d) raw = (d, some (.wellFormed today d)) ∧
      ∀ o : AiInspOutcome,
        fetchDailyInspirationAI today o (some (.wellFormed today d)) =
          (d, some (.wellFormed today d))) ∧
    fetchDailyInspirationAI today .err raw = (FALLBACK_AI, raw) := by
  refine ⟨?_, ?_, ?_⟩
  · intro oA oH
    refine ⟨⟨(resolveHalf oA FALLBACK_AYAH).getD ⟨"", "", ""⟩,
             (resolveHalf oH FALLBACK_HADITH).getD ⟨"", "", ""⟩⟩, ?_, ?_⟩
    · simp [fetchDailyInspirationDual, hmiss2]
    · intro oA' oH'
      simp [fetchDailyInspirationDual, getCachedInspirationThrowing]
  · intro d
    constructor
    · simp [fetchDailyInspirationAI, hmiss]
    · intro o
      simp [fetchDailyInspirationAI, getCachedInspiration]
  · simp [fetchDailyInspirationAI, hmiss]

/-- Witness for the amended C5 at a concrete day and the empty cache. -/
theorem inspiration_caching_semantics_witness :
    (∀ oAyah oHadith : HalfOutcome, ∃ r : DailyInspiration,
      fetchDailyInspirationDual "Sat Oct 11 2025" oAyah oHadith none =
        .ok (r, some (.wellFormed "Sat Oct 11 2025" r)) ∧
      ∀ oA oH : HalfOutcome,
        fetchDailyInspirationDual "Sat Oct 11 2025" oA oH
            (some (.wellFormed "Sat Oct 11 2025" r)) =
          .ok (r, some (.wellFormed "Sat Oct 11 2025" r))) ∧
    (∀ d : DailyInspiration,
      fetchDailyInspirationAI "Sat Oct 11 2025" (.ok d) none =
        (d, some (.wellFormed "Sat Oct 11 2025" d)) ∧
      ∀ o : AiInspOutcome,
        fetchDailyInspirationAI "Sat Oct 11 2025" o
            (some (.wellFormed "Sat Oct 11 2025" d)) =
          (d, some (.wellFormed "Sat Oct 11 2025" d))) ∧
    fetchDailyInspirationAI "Sat Oct 11 2025" .err none = (FALLBACK_AI, none) :=
  inspiration_caching_semantics "Sat Oct 11 2025" none rfl rfl

lemma getSystemHijriDate_ne_empty (sys : SysHijriOutcome) (h : sys ≠ .err) :
    ¬ getSystemHijriDate sys = "" := by
  cases sys with
  | parts day month year =>
    intro he
    have hl := congrArg String.length he
    simp only [getSystemHijriDate, String.length_append] at hl
    have h1 : (" " : String).length = 1 := rfl
    have h2 : (", " : String).length = 2 := rfl
    have h3 : (" AH" : String).length = 3 := rfl
    have h0 : ("" : String).length = 0 := rfl
    rw [h1, h2, h3, h0] at hl
    omega
  | noParts formatted =>
    intro he
    have hl := congrArg String.length he
    simp only [getSystemHijriDate, String.length_append] at hl
    have h3 : (" AH" : String).length = 3 := rfl
    have h0 : ("" : String).length = 0 := rfl
    rw [h3, h0] at hl
    omega
  | err => exact absurd rfl h

/-- Claim C6: on a cache miss for the requested Gregorian day key, a remote
source that errors or is rate-limited makes the resolver return the locally
computed Umm al-Qura string and cache it under that key, never a failure;
only when the local Intl computation itself throws does it return the fixed
placeholder, and the placeholder is never written to the cache. -/
theorem hijri_remote_failure_degrades
    (dateKey : String) (cache : HijriCache)
    (hmiss : cache dateKey = none) :
    (∀ sys : SysHijriOutcome, sys ≠ .err →
      fetchHijriDateOnline dateKey sys .err cache =
        (getSystemHijriDate sys, cache.write dateKey (getSystemHijriDate sys))) ∧
    (∀ ai : AiHijriOutcome,
      fetchHijriDateOnline dateKey .err ai cache =
        ("Islamic Date Unavailable", cache)) := by
  constructor
  · intro sys hsys
    simp [fetchHijriDateOnline, hmiss, resolveHijri, getSystemHijriDate_ne_empty sys hsys]
  · intro ai
    simp [fetchHijriDateOnline, hmiss, resolveHijri, getSystemHijriDate]

/-- Witness for C6 at a concrete day key, empty cache and a concrete system
date outcome. -/
theorem hijri_remote_failure_degrades_witness :
    ((fun _ : String => (none : Option String)) "2025-10-11" = none) ∧
    ((∀ sys : SysHijriOutcome, sys ≠ .err →
      fetchHijriDateOnline "2025-10-11" sys .err (fun _ => none) =
        (getSystemHijriDate sys,
         HijriCache.write (fun _ => none) "2025-10-11" (getSystemHijriDate sys))) ∧
     (∀ ai : AiHijriOutcome,
      fetchHijriDateOnline "2025-10-11" .err ai (fun _ => none) =
        ("Islamic Date Unavailable", fun _ => none))) :=
  ⟨rfl, hijri_remote_failure_degrades "2025-10-11" (fun _ => none) rfl⟩

/-- Claim C7: once a Hijri string is cached for a Gregorian day key, every
later resolution call returns exactly that string with the cache unchanged —
provided the cached string contains no literal Gregorian month name — so
repeated calls are idempotent and consult no oracle; a cached string that
does contain a Gregorian month name is rejected and the date is re-resolved
by the resolution body. -/
theorem hijri_cache_idempotent
    (dateKey c : String) (cache : HijriCache)
    (sys : SysHijriOutcome) (ai : AiHijriOutcome)
    (hhit : cache dateKey = some c) :
    (containsGregorianMonth c = false →
      fetchHijriDateOnline dateKey sys ai cache = (c, cache) ∧
      ∀ (sys2 : SysHijriOutcome) (ai2 : AiHijriOutcome),
        fetchHijriDateOnline dateKey sys2 ai2
          (fetchHijriDateOnline dateKey sys ai cache).2 = (c, cache)) ∧
    (containsGregorianMonth c = true →
      fetchHijriDateOnline dateKey sys ai cache =
        resolveHijri dateKey sys ai cache) := by
  constructor
  · intro hclean
    have h1 : fetchHijriDateOnline dateKey sys ai cache = (c, cache) := by
      simp [fetchHijriDateOnline, hhit, hclean]
    refine ⟨h1, ?_⟩
    intro sys2 ai2
    rw [h1]
    simp [fetchHijriDateOnline, hhit, hclean]
  · intro hgreg
    simp [fetchHijriDateOnline, hhit, hgreg]

/-- Witness for C7: a cache holding an Islamic-looking string for the key
returns it unchanged on two successive calls with fresh oracles, and the
instantiation also covers the Gregorian-rejection branch. -/
theorem hijri_cache_idempotent_witness :
    ((fun k : String =>
        if k = "2025-10-11" then some "18 Rabi al-Thani, 1447 AH" else none)
      "2025-10-11" = some "18 Rabi al-Thani, 1447 AH") ∧
    ((containsGregorianMonth "18 Rabi al-Thani, 1447 AH" = false →
      fetchHijriDateOnline "2025-10-11" .err .err
          (fun k => if k = "2025-10-11" then some "18 Rabi al-Thani, 1447 AH" else none) =
        ("18 Rabi al-Thani, 1447 AH",
         fun k => if k = "2025-10-11" then some "18 Rabi al-Thani, 1447 AH" else none) ∧
      ∀ (sys2 : SysHijriOutcome) (ai2 : AiHijriOutcome),
        fetchHijriDateOnline "2025-10-11" sys2 ai2
            (fetchHijriDateOnline "2025-10-11" .err .err
              (fun k => if k = "2025-10-11" then some "18 Rabi al-Thani, 1447 AH" else none)).2 =
          ("18 Rabi al-Thani, 1447 AH",
           fun k => if k = "2025-10-11" then some "18 Rabi al-Thani, 1447 AH" else none)) ∧
     (containsGregorianMonth "18 Rabi al-Thani, 1447 AH" = true →
      fetchHijriDateOnline "2025-10-11" .err .err
          (fun k => if k = "2025-10-11" then some "18 Rabi al-Thani, 1447 AH" else none) =
        resolveHijri "2025-10-11" .err .err
          (fun k => if k = "2025-10-11" then some "18 Rabi al-Thani, 1447 AH" else none))) :=
  ⟨by decide,
   hijri_cache_idempotent "2025-10-11" "18 Rabi al-Thani, 1447 AH"
     (fun k => if k = "2025-10-11" then some "18 Rabi al-Thani, 1447 AH" else none)
     .err .err (by decide)⟩

/-- Counterexample to claim C8: the getCachedInspiration variant of
part_003 and part_001 parses the stored value without a try/catch, so a
stored value that fails to parse makes the read throw — the exception
propagates to the caller instead of being treated as a cache miss. -/
theorem corrupt_cache_read_throws :
    getCachedInspirationThrowing (some .corrupt) "Sat Oct 11 2025" = .error () :=
  rfl

/-- Claim C8 as amended: in src/services/islamicService.ts the cache read
catches the parse failure of a corrupt stored value and returns a cache miss,
after which resolution proceeds (a successful fetch re-populates the cache);
in the part_003 and part_001 variant the same corrupt value makes the read —
and hence the whole fetch — propagate the parse exception. -/
theorem corrupt_cache_read_semantics (today : String) :
    getCachedInspiration (some .corrupt) today = none ∧
    (∀ d : DailyInspiration,
      fetchDailyInspirationAI today (.ok d) (some .corrupt) =
        (d, some (.wellFormed today d))) ∧
    getCachedInspirationThrowing (some .corrupt) today = .error () ∧
    (∀ oA oH : HalfOutcome,
      fetchDailyInspirationDual today oA oH (some .corrupt) = .error ()) := by
  refine ⟨rfl, ?_, rfl, ?_⟩
  · intro d
    simp [fetchDailyInspirationAI, getCachedInspiration]
  · intro oA oH
    simp [fetchDailyInspirationDual, getCachedInspirationThrowing]

lemma take_append_take_of_le {α : Type} (B : List α) :
    ∀ (A : List α) (n m : Nat), n ≤ m →
      (A ++ B.take m).take n = (A ++ B).take n := by
  intro A
  induction A with
  | nil =>
    intro n m hnm
    simp only [List.nil_append, List.take_take]
    rw [Nat.min_eq_left hnm]
  | cons a A ih =>
    intro n m hnm
    cases n with
    | zero => simp
    | succ k =>
      simp only [List.cons_append, List.take_succ_cons]
      rw [ih k m (Nat.le_trans (Nat.le_succ k) hnm)]

lemma foldl_logSession (ss : List TasbeehSession) :
    ∀ h : List TasbeehSession, h.length ≤ 50 →
      ss.foldl (fun acc s => logSession s acc) h = (ss.reverse ++ h).take 50 := by
  induction ss with
  | nil =>
    intro h hh
    simp only [List.foldl_nil, List.reverse_nil, List.nil_append]
    exact (List.take_of_length_le hh).symm
  | cons s ss ih =>
    intro h hh
    simp only [List.foldl_cons]
    rw [ih (logSession s h) (List.length_take_le 50 (s :: h))]
    unfold logSession
    rw [take_append_take_of_le (s :: h) ss.reverse 50 50 (Nat.le_refl 50)]
    rw [List.reverse_cons, List.append_assoc]
    rfl

/-- Claim C9: logSession prepends the new record and truncates to at most
the 50 most recent before persisting; starting from an empty log, 51
sequential calls leave exactly 50 records, whose most recent is the record of
the 51st call, with every record of calls 2 to 51 retained and the record of
the first call evicted. -/
theorem logSession_cap_and_eviction
    (ss tail : List TasbeehSession) (first : TasbeehSession)
    (hss : ss = first :: tail) (hlen : ss.length = 51) (hnd : ss.Nodup) :
    (∀ (s : TasbeehSession) (h : List TasbeehSession),
      logSession s h = (s :: h).take 50 ∧ (logSession s h).length ≤ 50) ∧
    (ss.foldl (fun acc s => logSession s acc) []).length = 50 ∧
    (ss.foldl (fun acc s => logSession s acc) []).head? = ss.getLast? ∧
    first ∉ ss.foldl (fun acc s => logSession s acc) [] ∧
    ∀ x ∈ tail, x ∈ ss.foldl (fun acc s => logSession s acc) [] := by
  have hfold : ss.foldl (fun acc s => logSession s acc) [] = tail.reverse := by
    rw [foldl_logSession ss [] (by simp), List.append_nil, hss, List.reverse_cons]
    have htail : tail.reverse.length = 50 := by
      rw [List.length_reverse]
      have := hlen
      rw [hss] at this
      simpa using Nat.succ_injective this
    rw [← htail, List.take_left]
  subst hss
  refine ⟨?_, ?_, ?_, ?_, ?_⟩
  · intro s h
    refine ⟨rfl, ?_⟩
    unfold logSession
    exact le_trans (List.length_take_le 50 (s :: h)) (Nat.le_refl 50)
  · rw [hfold, List.length_reverse]
    simpa using Nat.succ_injective hlen
  · rw [hfold, List.head?_reverse]
    cases tail with
    | nil => simp at hlen
    | cons b l => simp [List.getLast?_cons_cons]
  · rw [hfold, List.mem_reverse]
    exact (List.nodup_cons.mp hnd).1
  · intro x hx
    rw [hfold, List.mem_reverse]
    exact hx

/-- Witness for C9: the concrete 51-call scenario with distinct session
records. -/
theorem logSession_cap_and_eviction_witness :
    ssW = s0W :: tW ∧ ssW.length = 51 ∧ ssW.Nodup ∧
    ((∀ (s : TasbeehSession) (h : List TasbeehSession),
       logSession s h = (s :: h).take 50 ∧ (logSession s h).length ≤ 50) ∧
     (ssW.foldl (fun acc s => logSession s acc) []).length = 50 ∧
     (ssW.foldl (fun acc s => logSession s acc) []).head? = ssW.getLast? ∧
     s0W ∉ ssW.foldl (fun acc s => logSession s acc) [] ∧
     ∀ x ∈ tW, x ∈ ssW.foldl (fun acc s => logSession s acc) []) :=
  ⟨by decide, by decide, by decide,
   logSession_cap_and_eviction ssW tW s0W (by decide) (by decide) (by decide)⟩

lemma iterIncr_spec (mk : Nat → TasbeehSession) (T : Nat) (hT : 0 < T) :
    ∀ (n c : Nat) (h : List TasbeehSession),
      iterIncr mk n ⟨c, T, h⟩ =
        ⟨c + n, T, if c < T ∧ T ≤ c + n then logSession (mk T) h else h⟩ := by
  intro n
  induction n with
  | zero =>
    intro c h
    simp only [iterIncr, Nat.add_zero]
    rw [if_neg (by omega)]
  | succ n ih =>
    intro c h
    show iterIncr mk n (handleIncrement mk ⟨c, T, h⟩) = _
    by_cases hc : c + 1 = T
    · have h1 : handleIncrement mk ⟨c, T, h⟩ =
          ⟨c + 1, T, logSession (mk (c + 1)) h⟩ := by
        simp [handleIncrement, hT, hc]
      rw [h1, ih (c + 1) (logSession (mk (c + 1)) h)]
      rw [if_neg (by omega), if_pos (by omega), hc]
      simp only [TasbeehState.mk.injEq, and_true]
      omega
    · have h1 : handleIncrement mk ⟨c, T, h⟩ = ⟨c + 1, T, h⟩ := by
        simp [handleIncrement, hc]
      rw [h1, ih (c + 1) h]
      by_cases hcond : c < T ∧ T ≤ c + (n + 1)
      · rw [if_pos (by omega), if_pos hcond]
        simp only [TasbeehState.mk.injEq, and_true]
        omega
      · rw [if_neg (by omega), if_neg hcond]
        simp only [TasbeehState.mk.injEq, and_true]
        omega

/-- Claim C10: with a non-infinite target selected, an increment logs a
session exactly when the running count becomes equal to the target; a manual
reset never logs; and a run of any number of increments from zero against a
finite target logs at most one record — the history either gains the single
record of the completing increment (once the run reaches the target) or is
unchanged. -/
theorem tasbeeh_single_log_per_run
    (mk : Nat → TasbeehSession) (s : TasbeehState)
    (T n : Nat) (h : List TasbeehSession) (hT : 0 < T) :
    (0 < s.target → (resetCount mk s).history = s.history) ∧
    (s.count + 1 ≠ s.target → (handleIncrement mk s).history = s.history) ∧
    (s.count + 1 = s.target →
      (handleIncrement mk s).history = logSession (mk s.target) s.history) ∧
    ((iterIncr mk n ⟨0, T, h⟩).history =
      if T ≤ n then logSession (mk T) h else h) ∧
    (iterIncr mk n ⟨0, T, h⟩).history.length ≤ h.length + 1 := by
  have hiter := iterIncr_spec mk T hT n 0 h
  refine ⟨?_, ?_, ?_, ?_, ?_⟩
  · intro hst
    unfold resetCount
    rw [if_neg (by omega)]
  · intro hne
    unfold handleIncrement
    rw [if_neg (by intro hcon; exact hne hcon.2)]
  · intro heq
    unfold handleIncrement
    rw [if_pos ⟨by omega, heq⟩, heq]
  · rw [hiter]
    by_cases hn : T ≤ n
    · rw [if_pos (by omega), if_pos hn]
    · rw [if_neg (by omega), if_neg hn]
  · rw [hiter]
    show (if 0 < T ∧ T ≤ 0 + n then logSession (mk T) h else h).length ≤ h.length + 1
    by_cases hcond : 0 < T ∧ T ≤ 0 + n
    · rw [if_pos hcond]
      unfold logSession
      rw [List.length_take, List.length_cons]
      omega
    · rw [if_neg hcond]
      omega

/-- Witness for C10: a concrete run against target 3 — a mid-run reset and a
non-completing increment leave the history unchanged, the third increment
logs exactly one record, and five increments from zero still leave a single
record. -/
theorem tasbeeh_single_log_per_run_witness :
    (0 : Nat) < 3 ∧
    ((0 < (TasbeehState.mk 1 3 []).target →
      (resetCount mkRunW ⟨1, 3, []⟩).history = ([] : List TasbeehSession)) ∧
     ((TasbeehState.mk 1 3 []).count + 1 ≠ (TasbeehState.mk 1 3 []).target →
      (handleIncrement mkRunW ⟨1, 3, []⟩).history = ([] : List TasbeehSession)) ∧
     ((TasbeehState.mk 1 3 []).count + 1 = (TasbeehState.mk 1 3 []).target →
      (handleIncrement mkRunW ⟨1, 3, []⟩).history = logSession (mkRunW 3) []) ∧
     ((iterIncr mkRunW 5 ⟨0, 3, []⟩).history =
       if 3 ≤ 5 then logSession (mkRunW 3) [] else []) ∧
     (iterIncr mkRunW 5 ⟨0, 3, []⟩).history.length ≤ ([] : List TasbeehSession).length + 1) :=
  ⟨by decide, tasbeeh_single_log_per_run mkRunW ⟨1, 3, []⟩ 3 5 [] (by decide)⟩

end NurDaily
